import Mathlib

/-!
Verification of the Smart Staff Attendance System core
(`facial_recognition.py`): the access-control decision engine
(servo latch control from recognition results, button samples and
timeouts) and the detection-session aggregator (per-identity dwell
time flushed to a CSV audit sink).

The embedding follows the source. Machine times and confidences are
modelled as rationals; one control-loop iteration (one tick) takes one
frame's recognition results, one button sample and one timestamp, as
in the per-tick contract of the engine.
-/

namespace SmartStaff

/-- One in-memory dwell-time session (an entry of the `detections`
dictionary): creation time, time of the most recent sighting and the
most recently observed confidence. -/
structure Session where
  start : ℚ
  last_seen : ℚ
  confidence : ℚ
  deriving DecidableEq

/-- The `detections` dictionary: an association list from identity
names to their live sessions (at most one entry per key, as for a
Python dict). -/
abbrev Detections := List (String × Session)

/-- One data row appended to `detections_log.csv` by `log_detections`. -/
structure Row where
  timestamp : String
  name : String
  confidence : ℚ
  detected_duration : ℚ
  day : String
  deriving DecidableEq

/-- Observable side effects of the engine: the actuator commands issued
by `open_servo` / `close_servo` and the CSV appends of `log_detections`. -/
inductive Effect where
  | servoOpen
  | servoClose
  | csvAppend (rows : List Row)
  deriving DecidableEq

/-- The module-level mutable state of `facial_recognition.py`:
`servo_state`, `last_seen_time`, `last_button_press`, `last_log_time`
and the `detections` dictionary. -/
structure SysState where
  servo_state : Bool
  last_seen_time : ℚ
  last_button_press : ℚ
  last_log_time : ℚ
  detections : Detections
  deriving DecidableEq

/-- The trusted staff roster from `draw_results`
(`staff = ["dinith", "isuru", "dulaj", "nimesh"]`), matched against
lowercased recognized names. -/
def staff : List String := ["dinith", "isuru", "dulaj", "nimesh"]

/-- `SERVO_TIMEOUT = 5` (seconds). -/
def SERVO_TIMEOUT : ℚ := 5

/-- `BUTTON_PRESS_TIMEOUT = 5` (seconds). -/
def BUTTON_PRESS_TIMEOUT : ℚ := 5

/-- `LOG_INTERVAL = 5 * 60` (seconds). -/
def LOG_INTERVAL : ℚ := 5 * 60

/-- `open_servo()`: commands the open position, sets
`servo_state = True` and `last_seen_time = now`. -/
def open_servo (s : SysState) (now : ℚ) : SysState × List Effect :=
  ({ s with servo_state := true, last_seen_time := now }, [Effect.servoOpen])

/-- `close_servo()`: commands the closed position and sets
`servo_state = False`. -/
def close_servo (s : SysState) : SysState × List Effect :=
  ({ s with servo_state := false }, [Effect.servoClose])

/-- The `detections` dictionary update from `draw_results`:
`if name not in detections: create  else: update last_seen/confidence`.
The key is the raw `name` string, exactly as in the source. -/
def updateSession (d : Detections) (name : String) (conf now : ℚ) : Detections :=
  match d with
  | [] => [(name, ⟨now, now, conf⟩)]
  | (n, sess) :: rest =>
    if n = name then (n, { sess with last_seen := now, confidence := conf }) :: rest
    else (n, sess) :: updateSession rest name conf now

/-- The aggregator's record operation: the `if name != "Unknown"` guard
of `draw_results` in front of the dictionary update. -/
def record (d : Detections) (name : String) (conf now : ℚ) : Detections :=
  if name = "Unknown" then d else updateSession d name conf now

/-- Dictionary lookup used to state facts about live sessions. -/
def lookupD : Detections → String → Option Session
  | [], _ => none
  | (n, sess) :: rest, name => if n = name then some sess else lookupD rest name

/-- Python's `str.lower()` for the ASCII identity names of this system:
lowercase every character. -/
def lower (s : String) : String := ⟨s.data.map Char.toLower⟩

/-- `detected_staff` for one tick's results: some recognized name is in
the roster after lowercasing (`name.lower() in staff`). -/
def detectedStaff (faces : List (String × ℚ)) : Bool :=
  faces.any (fun p => decide (lower p.1 ∈ staff))

/-- The per-face loop of `draw_results`: for every `(name, conf)` pair,
set `detected_staff` and refresh `last_seen_time` on a roster match,
then fold the sighting into the `detections` dictionary. -/
def faceLoop (faces : List (String × ℚ)) (now : ℚ) (s : SysState) (detected : Bool) :
    SysState × Bool :=
  match faces with
  | [] => (s, detected)
  | (name, conf) :: rest =>
    let s1 := if lower name ∈ staff then { s with last_seen_time := now } else s
    let s2 := { s1 with detections := record s1.detections name conf now }
    faceLoop rest now s2 (detected || decide (lower name ∈ staff))

/-- `draw_results` (decision part): the per-face loop followed by the
face-detection-based control — open on a trusted detection when closed,
else close when open, past `SERVO_TIMEOUT` since `last_seen_time`, and
the button not pressed. -/
def draw_results (s : SysState) (faces : List (String × ℚ)) (now : ℚ) (button : Bool) :
    SysState × List Effect :=
  let fl := faceLoop faces now s false
  if fl.2 = true ∧ fl.1.servo_state = false then
    open_servo fl.1 now
  else if fl.1.servo_state = true ∧ now - fl.1.last_seen_time > SERVO_TIMEOUT ∧
      button = false then
    close_servo fl.1
  else (fl.1, [])

/-- The button-control block of the main loop: on a pressed sample with
more than 0.5 s since the last accepted press, record the press time and
call `open_servo` (with no check of the current latch state). -/
def buttonStep (s : SysState) (now : ℚ) (button : Bool) : SysState × List Effect :=
  if button = true ∧ now - s.last_button_press > 1/2 then
    open_servo { s with last_button_press := now } now
  else (s, [])

/-- The auto-close block of the main loop: close when open, past
`BUTTON_PRESS_TIMEOUT` since `last_seen_time`, and the button not
pressed. -/
def autoCloseStep (s : SysState) (now : ℚ) (button : Bool) : SysState × List Effect :=
  if s.servo_state = true ∧ now - s.last_seen_time > BUTTON_PRESS_TIMEOUT ∧
      button = false then
    close_servo s
  else (s, [])

/-- One decision-engine tick: `draw_results`, then the button-control
block, then the auto-close block, on one frame's results, one button
sample and one timestamp. -/
def engineTick (s : SysState) (faces : List (String × ℚ)) (button : Bool) (now : ℚ) :
    SysState × List Effect :=
  let r1 := draw_results s faces now button
  let r2 := buttonStep r1.1 now button
  let r3 := autoCloseStep r2.1 now button
  (r3.1, r1.2 ++ r2.2 ++ r3.2)

/-- Python's `round(q, 2)` idealized over exact rationals: round to a
multiple of 1/100, ties to even (banker's rounding). -/
def round2 (q : ℚ) : ℚ :=
  if 100 * q - Int.floor (100 * q) < 1/2 then (Int.floor (100 * q) : ℚ) / 100
  else if 100 * q - Int.floor (100 * q) > 1/2 then ((Int.floor (100 * q) : ℚ) + 1) / 100
  else if Int.floor (100 * q) % 2 = 0 then (Int.floor (100 * q) : ℚ) / 100
  else ((Int.floor (100 * q) : ℚ) + 1) / 100

/-- The rows materialized by `log_detections`: one row per live session,
with `duration = round(last_seen - start, 2)`. -/
def detectionRows (d : Detections) (nowLabel day : String) : List Row :=
  d.map (fun p => ⟨nowLabel, p.1, p.2.confidence, round2 (p.2.last_seen - p.2.start), day⟩)

/-- `log_detections()`: build the rows, append them to the CSV only when
nonempty (`if rows:`), then clear the `detections` dictionary. -/
def log_detections (s : SysState) (nowLabel day : String) : SysState × List Effect :=
  let rows := detectionRows s.detections nowLabel day
  ({ s with detections := [] },
   if rows = [] then [] else [Effect.csvAppend rows])

/-- One control-loop iteration's inputs: a camera read failure, or a
frame with its recognition results, button sample, timestamp, timestamp
labels for logging, and whether the stop key was pressed. -/
inductive TickInput where
  | camFail
  | frame (faces : List (String × ℚ)) (button : Bool) (now : ℚ)
      (nowLabel day : String) (q : Bool)
  deriving DecidableEq

/-- The `finally` block's flush-then-close sequence:
`log_detections()` then `close_servo()`. -/
def shutdownSeq (s : SysState) (nowLabel day : String) : SysState × List Effect :=
  let r1 := log_detections s nowLabel day
  let r2 := close_servo r1.1
  (r2.1, r1.2 ++ r2.2)

/-- One full main-loop body for a successfully read frame: the engine
tick followed by the interval-gated `log_detections` (which also resets
`last_log_time`). -/
def frameStep (s : SysState) (faces : List (String × ℚ)) (button : Bool) (now : ℚ)
    (nl d : String) : SysState × List Effect :=
  let r1 := engineTick s faces button now
  let r2 :=
    if now - r1.1.last_log_time ≥ LOG_INTERVAL then
      let r := log_detections r1.1 nl d
      ({ r.1 with last_log_time := now }, r.2)
    else (r1.1, ([] : List Effect))
  (r2.1, r1.2 ++ r2.2)

/-- The main `try` loop without the `finally` block: run frame steps
until a camera failure, the stop key, or end of input. -/
def loopTicks (s : SysState) (inputs : List TickInput) : SysState × List Effect :=
  match inputs with
  | [] => (s, [])
  | TickInput.camFail :: _ => (s, [])
  | TickInput.frame faces button now nl d q :: rest =>
    let r := frameStep s faces button now nl d
    if q = true then r
    else
      let r3 := loopTicks r.1 rest
      (r3.1, r.2 ++ r3.2)

/-- The whole control loop with its `finally` block: every exit path
(end of input / stop signal, camera failure, stop key) falls through to
the flush-then-close shutdown sequence. -/
def loopRun (s : SysState) (inputs : List TickInput) (finalLabel finalDay : String) :
    SysState × List Effect :=
  match inputs with
  | [] => shutdownSeq s finalLabel finalDay
  | TickInput.camFail :: _ => shutdownSeq s finalLabel finalDay
  | TickInput.frame faces button now nl d q :: rest =>
    let r := frameStep s faces button now nl d
    if q = true then
      let r3 := shutdownSeq r.1 finalLabel finalDay
      (r3.1, r.2 ++ r3.2)
    else
      let r3 := loopRun r.1 rest finalLabel finalDay
      (r3.1, r.2 ++ r3.2)

/-- The initial module-level state: latch closed, both timers at 0,
`last_log_time` at process start, no live sessions. -/
def initState (t0 : ℚ) : SysState :=
  { servo_state := false, last_seen_time := 0, last_button_press := 0,
    last_log_time := t0, detections := [] }

/-- A line of the CSV audit sink: the header row or a data row. -/
inductive CsvLine where
  | header
  | data (r : Row)
  deriving DecidableEq

/-- The rows carried by the CSV-append effects of a trace. -/
def effectRows (effs : List Effect) : List Row :=
  (effs.filterMap (fun e =>
    match e with
    | Effect.csvAppend rows => some rows
    | _ => none)).flatten

/-- Everything one process run appends to `detections_log.csv`: the CSV
setup writes a header row at startup (file opened in append mode), then
the run's flushes append their data rows. -/
def processOutput (s : SysState) (inputs : List TickInput) (lab day : String) :
    List CsvLine :=
  CsvLine.header :: (effectRows (loopRun s inputs lab day).2).map CsvLine.data

/-! ### Helper lemmas about the per-face loop -/

lemma faceLoop_servo (faces : List (String × ℚ)) (now : ℚ) (s : SysState) (det : Bool) :
    (faceLoop faces now s det).1.servo_state = s.servo_state := by
  induction faces generalizing s det with
  | nil => rfl
  | cons f rest ih =>
    obtain ⟨name, conf⟩ := f
    simp only [faceLoop]
    rw [ih]
    split <;> rfl

lemma faceLoop_button (faces : List (String × ℚ)) (now : ℚ) (s : SysState) (det : Bool) :
    (faceLoop faces now s det).1.last_button_press = s.last_button_press := by
  induction faces generalizing s det with
  | nil => rfl
  | cons f rest ih =>
    obtain ⟨name, conf⟩ := f
    simp only [faceLoop]
    rw [ih]
    split <;> rfl

lemma faceLoop_log (faces : List (String × ℚ)) (now : ℚ) (s : SysState) (det : Bool) :
    (faceLoop faces now s det).1.last_log_time = s.last_log_time := by
  induction faces generalizing s det with
  | nil => rfl
  | cons f rest ih =>
    obtain ⟨name, conf⟩ := f
    simp only [faceLoop]
    rw [ih]
    split <;> rfl

lemma faceLoop_detected (faces : List (String × ℚ)) (now : ℚ) (s : SysState) (det : Bool) :
    (faceLoop faces now s det).2 = (det || detectedStaff faces) := by
  induction faces generalizing s det with
  | nil => simp [faceLoop, detectedStaff]
  | cons f rest ih =>
    obtain ⟨name, conf⟩ := f
    simp only [faceLoop]
    rw [ih]
    simp [detectedStaff, Bool.or_assoc]

lemma faceLoop_last_seen (faces : List (String × ℚ)) (now : ℚ) (s : SysState) (det : Bool) :
    (faceLoop faces now s det).1.last_seen_time =
      if detectedStaff faces = true then now else s.last_seen_time := by
  induction faces generalizing s det with
  | nil => simp [faceLoop, detectedStaff]
  | cons f rest ih =>
    obtain ⟨name, conf⟩ := f
    simp only [faceLoop]
    rw [ih]
    by_cases h : lower name ∈ staff
    · simp [detectedStaff, h]
    · simp [detectedStaff, h]
      simp only [decide_eq_false h, Bool.false_or]

/-- Both timeout constants are the same five-second duration. -/
lemma timeouts_eq : BUTTON_PRESS_TIMEOUT = SERVO_TIMEOUT := rfl

lemma not_fresh_timeout (now : ℚ) : ¬(now - now > BUTTON_PRESS_TIMEOUT) := by
  norm_num [BUTTON_PRESS_TIMEOUT]


/-- `buttonStep` in closed form with the resulting state written out. -/
lemma buttonStep_eq (s : SysState) (now : ℚ) (button : Bool) :
    buttonStep s now button =
      if button = true ∧ now - s.last_button_press > 1/2 then
        (SysState.mk true now now s.last_log_time s.detections, [Effect.servoOpen])
      else (s, []) := rfl

/-- Closed form for the draw-results decision: after the per-face loop,
either a trusted-detection open (when closed), or a timeout close (when
open, past the timeout since the possibly-refreshed `last_seen_time`,
button up), or no effect. -/
lemma draw_results_eq (s : SysState) (faces : List (String × ℚ)) (now : ℚ)
    (button : Bool) :
    draw_results s faces now button =
      (if detectedStaff faces = true ∧ s.servo_state = false then
        (SysState.mk true now (faceLoop faces now s false).1.last_button_press
          (faceLoop faces now s false).1.last_log_time
          (faceLoop faces now s false).1.detections, [Effect.servoOpen])
      else if s.servo_state = true ∧
          now - (if detectedStaff faces = true then now else s.last_seen_time) >
            SERVO_TIMEOUT ∧ button = false then
        (SysState.mk false (if detectedStaff faces = true then now else s.last_seen_time)
          (faceLoop faces now s false).1.last_button_press
          (faceLoop faces now s false).1.last_log_time
          (faceLoop faces now s false).1.detections, [Effect.servoClose])
      else ((faceLoop faces now s false).1, [])) := by
  unfold draw_results open_servo close_servo
  simp only [faceLoop_detected, faceLoop_servo, faceLoop_last_seen, Bool.false_or]

/-- Closed form for one engine tick's effect trace: the face-detection
control issues at most one effect (open on a trusted detection while
closed, else close on timeout with the button up), the button block
independently issues an open on an accepted press, and the trailing
auto-close block never fires within a single-timestamp tick. -/
lemma engineTick_effects (s : SysState) (faces : List (String × ℚ)) (button : Bool)
    (now : ℚ) :
    (engineTick s faces button now).2 =
      (if detectedStaff faces = true ∧ s.servo_state = false then [Effect.servoOpen]
       else if s.servo_state = true ∧
           now - (if detectedStaff faces = true then now else s.last_seen_time) >
             SERVO_TIMEOUT ∧ button = false then [Effect.servoClose]
       else []) ++
      (if button = true ∧ now - s.last_button_press > 1/2 then [Effect.servoOpen]
       else []) := by
  have hET : (engineTick s faces button now).2 =
      (draw_results s faces now button).2 ++
      (buttonStep (draw_results s faces now button).1 now button).2 ++
      (autoCloseStep (buttonStep (draw_results s faces now button).1 now button).1
        now button).2 := rfl
  rw [hET, draw_results_eq]
  clear hET
  by_cases hA : detectedStaff faces = true ∧ s.servo_state = false
  · rw [if_pos hA]
    try dsimp only
    rw [buttonStep_eq]
    try dsimp only
    rw [faceLoop_button]
    by_cases hC : button = true ∧ now - s.last_button_press > 1/2
    · rw [if_pos hC]
      try dsimp only
      rw [show autoCloseStep (SysState.mk true now now
          (faceLoop faces now s false).1.last_log_time
          (faceLoop faces now s false).1.detections) now button =
          (SysState.mk true now now (faceLoop faces now s false).1.last_log_time
            (faceLoop faces now s false).1.detections, []) from by
        unfold autoCloseStep
        exact if_neg (fun h => not_fresh_timeout now h.2.1)]
      rw [if_pos hA, if_pos hC]
      simp
    · rw [if_neg hC]
      try dsimp only
      rw [show autoCloseStep (SysState.mk true now s.last_button_press
          (faceLoop faces now s false).1.last_log_time
          (faceLoop faces now s false).1.detections) now button =
          (SysState.mk true now s.last_button_press
            (faceLoop faces now s false).1.last_log_time
            (faceLoop faces now s false).1.detections, []) from by
        unfold autoCloseStep
        exact if_neg (fun h => not_fresh_timeout now h.2.1)]
      rw [if_pos hA, if_neg hC]
      simp
  · rw [if_neg hA]
    by_cases hB : s.servo_state = true ∧
        now - (if detectedStaff faces = true then now else s.last_seen_time) >
          SERVO_TIMEOUT ∧ button = false
    · rw [if_pos hB]
      have hbf : ¬(button = true ∧ now - s.last_button_press > 1/2) := by
        rintro ⟨hb, -⟩
        rw [hB.2.2] at hb
        exact Bool.false_ne_true hb
      try dsimp only
      rw [buttonStep_eq]
      try dsimp only
      rw [faceLoop_button]
      rw [if_neg hbf]
      try dsimp only
      rw [show autoCloseStep (SysState.mk false
          (if detectedStaff faces = true then now else s.last_seen_time)
          s.last_button_press
          (faceLoop faces now s false).1.last_log_time
          (faceLoop faces now s false).1.detections) now button =
          (SysState.mk false
            (if detectedStaff faces = true then now else s.last_seen_time)
            s.last_button_press
            (faceLoop faces now s false).1.last_log_time
            (faceLoop faces now s false).1.detections, []) from by
        unfold autoCloseStep
        exact if_neg (fun h => Bool.false_ne_true h.1)]
      rw [if_neg hA, if_pos hB, if_neg hbf]
      simp
    · rw [if_neg hB]
      try dsimp only
      rw [buttonStep_eq]
      try dsimp only
      rw [faceLoop_button]
      by_cases hC : button = true ∧ now - s.last_button_press > 1/2
      · rw [if_pos hC]
        try dsimp only
        rw [show autoCloseStep (SysState.mk true now now
            (faceLoop faces now s false).1.last_log_time
            (faceLoop faces now s false).1.detections) now button =
            (SysState.mk true now now (faceLoop faces now s false).1.last_log_time
              (faceLoop faces now s false).1.detections, []) from by
          unfold autoCloseStep
          exact if_neg (fun h => not_fresh_timeout now h.2.1)]
        rw [if_neg hA, if_neg hB, if_pos hC]
        simp
      · rw [if_neg hC]
        try dsimp only
        rw [show autoCloseStep (faceLoop faces now s false).1 now button =
            ((faceLoop faces now s false).1, []) from by
          unfold autoCloseStep
          rw [faceLoop_servo, faceLoop_last_seen, timeouts_eq]
          exact if_neg hB]
        rw [if_neg hA, if_neg hB, if_neg hC]
        simp

/-! ### Claim theorems: decision engine -/

/-- Claim C1, counterexample: with the latch already Open, a held button
whose debounce interval has elapsed makes the tick invoke the `open()`
effect even though the latch is already Open — the manual-button path
issues the effect without checking the current latch state, so the claim
that no effect is ever issued when the target equals the current state
(including on the button path) is false. -/
theorem C1_counterexample :
    (SysState.mk true 0 0 0 []).servo_state = true ∧
    (engineTick (SysState.mk true 0 0 0 []) [] true 1).2 = [Effect.servoOpen] := by
  refine ⟨rfl, ?_⟩
  rw [engineTick_effects]
  rw [if_neg (fun h => Bool.noConfusion h.1)]
  rw [if_neg (fun h => Bool.noConfusion h.2.2)]
  rw [if_pos ⟨rfl, by norm_num⟩]
  rfl

/-- Claim C1, amended: the engine never invokes `close()` when the latch
is already Closed, and it never invokes `open()` when the latch is
already Open except on the manual-button path: any `open()` issued while
already Open comes from a pressed button sample whose 0.5-second
debounce interval since the last accepted press has elapsed. -/
theorem C1_amended : ∀ (s : SysState) (faces : List (String × ℚ)) (button : Bool)
    (now : ℚ),
    (Effect.servoClose ∈ (engineTick s faces button now).2 → s.servo_state = true) ∧
    (s.servo_state = true → Effect.servoOpen ∈ (engineTick s faces button now).2 →
      button = true ∧ now - s.last_button_press > 1/2) := by
  intro s faces button now
  rw [engineTick_effects]
  constructor
  · intro h
    by_cases hA : detectedStaff faces = true ∧ s.servo_state = false
    · rw [if_pos hA] at h
      by_cases hC : button = true ∧ now - s.last_button_press > 1/2
      · rw [if_pos hC] at h
        simp at h
      · rw [if_neg hC] at h
        simp at h
    · rw [if_neg hA] at h
      by_cases hB : s.servo_state = true ∧
          now - (if detectedStaff faces = true then now else s.last_seen_time) >
            SERVO_TIMEOUT ∧ button = false
      · exact hB.1
      · rw [if_neg hB] at h
        by_cases hC : button = true ∧ now - s.last_button_press > 1/2
        · rw [if_pos hC] at h
          simp at h
        · rw [if_neg hC] at h
          simp at h
  · intro hs h
    by_cases hA : detectedStaff faces = true ∧ s.servo_state = false
    · rw [hs] at hA
      exact Bool.noConfusion hA.2
    · rw [if_neg hA] at h
      by_cases hC : button = true ∧ now - s.last_button_press > 1/2
      · exact hC
      · rw [if_neg hC] at h
        by_cases hB : s.servo_state = true ∧
            now - (if detectedStaff faces = true then now else s.last_seen_time) >
              SERVO_TIMEOUT ∧ button = false
        · rw [if_pos hB] at h
          simp at h
        · rw [if_neg hB] at h
          simp at h

/-- Claim C1 amended, witness: a concrete close issued while Open, and a
concrete button re-open while already Open. -/
theorem C1_amended_witness :
    (SysState.mk true 0 0 0 []).servo_state = true ∧
    (true = true ∧ (1 : ℚ) - 0 > 1/2) :=
  ⟨(C1_amended (SysState.mk true 0 0 0 []) [] false 10).1 (by
      rw [engineTick_effects]
      rw [if_neg (fun h => Bool.noConfusion h.1)]
      rw [if_pos ⟨rfl, by norm_num [detectedStaff, SERVO_TIMEOUT], rfl⟩]
      simp),
   (C1_amended (SysState.mk true 0 0 0 []) [] true 1).2 rfl (by
      rw [engineTick_effects]
      rw [if_neg (fun h => Bool.noConfusion h.1)]
      rw [if_neg (fun h => absurd h.2.1 (by norm_num [detectedStaff, SERVO_TIMEOUT]))]
      rw [if_pos ⟨rfl, by norm_num⟩]
      simp)⟩

/-- Claim C2, counterexample: a tick whose frame contains a trusted
identity while the latch is Closed and whose button sample is pressed
(debounce elapsed) issues two actuator effects: the trusted-detection
path opens, then the button path calls `open()` again in the same tick.
So a single tick can issue more than one actuator effect. -/
theorem C2_counterexample :
    (engineTick (SysState.mk false 0 0 0 []) [("dinith", 80)] true 1).2 =
      [Effect.servoOpen, Effect.servoOpen] := by
  rw [engineTick_effects]
  rw [if_pos ⟨by decide, rfl⟩]
  rw [if_pos ⟨rfl, by norm_num⟩]
  rfl

/-- Claim C2, amended: per tick the effect trace is one of `[]`,
`[open]`, `[close]`, or `[open, open]` — at most one latch state change
per tick, at most one `close()`, and the only way to get two effects is
a trusted-detection open followed by an accepted-button re-open in the
same tick. -/
theorem C2_amended : ∀ (s : SysState) (faces : List (String × ℚ)) (button : Bool)
    (now : ℚ),
    (engineTick s faces button now).2 = [] ∨
    (engineTick s faces button now).2 = [Effect.servoOpen] ∨
    (engineTick s faces button now).2 = [Effect.servoClose] ∨
    (engineTick s faces button now).2 = [Effect.servoOpen, Effect.servoOpen] := by
  intro s faces button now
  rw [engineTick_effects]
  split_ifs <;> simp_all

/-- Claim C3: a transition to Closed is issued in a tick exactly when
the latch is Open, strictly more than the detection timeout has elapsed
since the last trusted sighting (the tick's own trusted detection
counting as a sighting at `now`), strictly more than the manual grace
period has elapsed since the last accepted button press, and the button
is not held.  The hypothesis is the engine invariant that the accepted
press timer never runs ahead of the last-seen timer (every accepted
press also refreshes `last_seen_time` through `open_servo`). -/
theorem C3 : ∀ (s : SysState) (faces : List (String × ℚ)) (button : Bool) (now : ℚ),
    s.last_button_press ≤ s.last_seen_time →
    (Effect.servoClose ∈ (engineTick s faces button now).2 ↔
      (s.servo_state = true ∧
       now - (if detectedStaff faces = true then now else s.last_seen_time) >
         SERVO_TIMEOUT ∧
       now - s.last_button_press > BUTTON_PRESS_TIMEOUT ∧
       button = false)) := by
  intro s faces button now hb
  rw [engineTick_effects]
  constructor
  · intro h
    by_cases hA : detectedStaff faces = true ∧ s.servo_state = false
    · rw [if_pos hA] at h
      by_cases hC : button = true ∧ now - s.last_button_press > 1/2
      · rw [if_pos hC] at h
        simp at h
      · rw [if_neg hC] at h
        simp at h
    · rw [if_neg hA] at h
      by_cases hB : s.servo_state = true ∧
          now - (if detectedStaff faces = true then now else s.last_seen_time) >
            SERVO_TIMEOUT ∧ button = false
      · refine ⟨hB.1, hB.2.1, ?_, hB.2.2⟩
        by_cases hD : detectedStaff faces = true
        · have h5 := hB.2.1
          rw [if_pos hD] at h5
          norm_num [SERVO_TIMEOUT] at h5
        · have h5 := hB.2.1
          rw [if_neg hD] at h5
          simp only [SERVO_TIMEOUT] at h5
          simp only [BUTTON_PRESS_TIMEOUT]
          linarith
      · rw [if_neg hB] at h
        by_cases hC : button = true ∧ now - s.last_button_press > 1/2
        · rw [if_pos hC] at h
          simp at h
        · rw [if_neg hC] at h
          simp at h
  · rintro ⟨hsv, hto, hbtto, hbf⟩
    have hA : ¬(detectedStaff faces = true ∧ s.servo_state = false) := by
      rintro ⟨-, hsf⟩
      rw [hsv] at hsf
      exact Bool.noConfusion hsf
    rw [if_neg hA, if_pos ⟨hsv, hto, hbf⟩]
    simp

/-- Claim C3, witness: latch Open since time 0 with no sightings or
presses — the tick at time 6 (timeout 5 exceeded) closes, and the tick
at time 4 does not. -/
theorem C3_witness :
    Effect.servoClose ∈ (engineTick (SysState.mk true 0 0 0 []) [] false 6).2 ∧
    Effect.servoClose ∉ (engineTick (SysState.mk true 0 0 0 []) [] false 4).2 := by
  constructor
  · exact (C3 (SysState.mk true 0 0 0 []) [] false 6 (by norm_num)).mpr
      ⟨rfl, by norm_num [detectedStaff, SERVO_TIMEOUT],
       by norm_num [BUTTON_PRESS_TIMEOUT], rfl⟩
  · intro h
    have hc := (C3 (SysState.mk true 0 0 0 []) [] false 4 (by norm_num)).mp h
    have h5 := hc.2.1
    norm_num [detectedStaff, SERVO_TIMEOUT] at h5

/-- Claim C4: a tick whose recognition results contain only `"Unknown"`
or non-roster identities (roster membership tested on the lowercased
name), with the latch Closed and the button not pressed, issues no
actuator effect and leaves the latch Closed. -/
theorem C4 : ∀ (s : SysState) (faces : List (String × ℚ)) (now : ℚ),
    (∀ p ∈ faces, p.1 = "Unknown" ∨ lower p.1 ∉ staff) →
    s.servo_state = false →
    (engineTick s faces false now).2 = [] ∧
    (engineTick s faces false now).1.servo_state = false := by
  intro s faces now hfaces hsv
  have hD : detectedStaff faces = false := by
    unfold detectedStaff
    rw [List.any_eq_false]
    intro p hp
    rcases hfaces p hp with h1 | h2
    · rw [h1]
      decide
    · simp [h2]
  have hAneg : ¬(detectedStaff faces = true ∧ s.servo_state = false) := by
    rintro ⟨hd, -⟩
    rw [hD] at hd
    exact Bool.noConfusion hd
  have hBneg : ¬(s.servo_state = true ∧
      now - (if detectedStaff faces = true then now else s.last_seen_time) >
        SERVO_TIMEOUT ∧ (false : Bool) = false) := by
    rintro ⟨hs, -⟩
    rw [hsv] at hs
    exact Bool.noConfusion hs
  constructor
  · rw [engineTick_effects]
    rw [if_neg hAneg, if_neg hBneg, if_neg (fun h => Bool.noConfusion h.1)]
    rfl
  · have h1 : draw_results s faces now false = ((faceLoop faces now s false).1, []) := by
      rw [draw_results_eq]
      rw [if_neg hAneg, if_neg hBneg]
    have h2 : buttonStep (faceLoop faces now s false).1 now false =
        ((faceLoop faces now s false).1, []) := by
      rw [buttonStep_eq]
      exact if_neg (fun h => Bool.noConfusion h.1)
    have h3 : autoCloseStep (faceLoop faces now s false).1 now false =
        ((faceLoop faces now s false).1, []) := by
      unfold autoCloseStep
      rw [faceLoop_servo]
      exact if_neg (fun h => Bool.noConfusion (hsv.symm.trans h.1))
    have hET1 : (engineTick s faces false now).1 =
        (autoCloseStep (buttonStep (draw_results s faces now false).1 now false).1
          now false).1 := rfl
    rw [hET1, h1]
    dsimp only
    rw [h2]
    dsimp only
    rw [h3]
    dsimp only
    rw [faceLoop_servo]
    exact hsv

/-- Claim C4, witness: a frame with an `"Unknown"` face and a non-roster
face, latch Closed, button up — no effect, latch stays Closed. -/
theorem C4_witness :
    (engineTick (SysState.mk false 0 0 0 []) [("Unknown", 40), ("bob", 77)] false 3).2 =
      [] ∧
    (engineTick (SysState.mk false 0 0 0 [])
      [("Unknown", 40), ("bob", 77)] false 3).1.servo_state = false :=
  C4 (SysState.mk false 0 0 0 []) [("Unknown", 40), ("bob", 77)] 3 (by decide) rfl

/-- Claim C10: an accepted button press (pressed sample, more than
0.5 s since the last accepted press) while the latch is already Open
leaves the latch Open, sets `last_button_press` and `last_seen_time` to
`now` (restarting the auto-close window), re-issues the `open()` effect,
and leaves the log timer and all Session state untouched. -/
theorem C10 : ∀ (s : SysState) (now : ℚ),
    s.servo_state = true → now - s.last_button_press > 1/2 →
    buttonStep s now true =
      (SysState.mk true now now s.last_log_time s.detections, [Effect.servoOpen]) := by
  intro s now hs hd
  rw [buttonStep_eq]
  exact if_pos ⟨rfl, hd⟩

/-- Claim C10, witness: the button path applied at a concrete Open
state. -/
theorem C10_witness :
    buttonStep (SysState.mk true 0 0 0 []) 1 true =
      (SysState.mk true 1 1 0 [], [Effect.servoOpen]) :=
  C10 (SysState.mk true 0 0 0 []) 1 rfl (by norm_num)

/-! ### Claim theorems: session aggregator -/

/-- Updating an existing session keeps its start time and overwrites
`last_seen` and `confidence` with the latest observation. -/
lemma lookupD_updateSession (d : Detections) (name : String) (conf now : ℚ) :
    ∀ sess, lookupD d name = some sess →
    lookupD (updateSession d name conf now) name = some ⟨sess.start, now, conf⟩ := by
  induction d with
  | nil =>
    intro sess hl
    simp [lookupD] at hl
  | cons p rest ih =>
    intro sess hl
    obtain ⟨n, s0⟩ := p
    by_cases he : n = name
    · simp only [lookupD, if_pos he] at hl
      obtain rfl := Option.some.inj hl
      simp only [updateSession, if_pos he, lookupD]
    · simp only [lookupD, if_neg he] at hl
      simp only [updateSession, if_neg he, lookupD]
      exact ih sess hl

/-- Claim C6: a repeated sighting of an identity keeps the Session's
start time, sets `last_seen` to `now` and overwrites the confidence with
the latest observed value; and concretely, recording `"alice"` at `t=0`
with confidence 80 and again at `t=12` with confidence 65 then flushing
yields exactly one row for `"alice"` with duration `12.0` and
confidence `65.0`. -/
theorem C6 : (∀ (d : Detections) (name : String) (conf now : ℚ) (sess : Session),
    name ≠ "Unknown" → lookupD d name = some sess →
    lookupD (record d name conf now) name = some ⟨sess.start, now, conf⟩) ∧
  (∀ lab day : String,
    detectionRows (record (record [] "alice" 80 0) "alice" 65 12) lab day =
      [⟨lab, "alice", 65, 12, day⟩]) := by
  constructor
  · intro d name conf now sess hn hl
    rw [record, if_neg hn]
    exact lookupD_updateSession d name conf now sess hl
  · intro lab day
    have hne : ("alice" = "Unknown") = False := by simp
    norm_num [record, updateSession, detectionRows, round2, hne]

/-- Claim C6, witness: the update rule applied to a concrete live
session for `"alice"`. -/
theorem C6_witness :
    lookupD (record [("alice", Session.mk 0 0 80)] "alice" 65 12) "alice" =
      some (Session.mk 0 12 65) :=
  C6.1 [("alice", Session.mk 0 0 80)] "alice" 65 12 (Session.mk 0 0 80)
    (by decide) (by simp [lookupD])

/-- Claim C7: `log_detections` removes every live Session; with no live
Sessions it emits no rows and performs no sink append; and a subsequent
record for any (non-"Unknown") identity after a flush creates a
brand-new Session with `start = last_seen = now`, whose flushed duration
is 0. -/
theorem C7 : ∀ (s : SysState) (lab day name : String) (conf now : ℚ),
    (log_detections s lab day).1.detections = [] ∧
    (s.detections = [] → (log_detections s lab day).2 = []) ∧
    (name ≠ "Unknown" →
      record (log_detections s lab day).1.detections name conf now =
        [(name, ⟨now, now, conf⟩)] ∧
      detectionRows (record (log_detections s lab day).1.detections name conf now)
        lab day = [⟨lab, name, conf, 0, day⟩]) := by
  intro s lab day name conf now
  refine ⟨rfl, ?_, ?_⟩
  · intro hd
    simp [log_detections, detectionRows, hd]
  · intro hn
    have h1 : (log_detections s lab day).1.detections = [] := rfl
    constructor
    · rw [h1, record, if_neg hn]
      rfl
    · rw [h1, record, if_neg hn]
      show detectionRows [(name, Session.mk now now conf)] lab day =
        [Row.mk lab name conf 0 day]
      norm_num [detectionRows, round2]

/-- Claim C7, witness: a flush of the empty state appends nothing, and a
record after a flush starts a fresh zero-duration session. -/
theorem C7_witness :
    (log_detections (SysState.mk false 0 0 0 []) "L" "D").2 = [] ∧
    record (log_detections (SysState.mk false 0 0 0 []) "L" "D").1.detections
      "bob" 60 7 = [("bob", Session.mk 7 7 60)] :=
  ⟨(C7 (SysState.mk false 0 0 0 []) "L" "D" "bob" 60 7).2.1 rfl,
   ((C7 (SysState.mk false 0 0 0 []) "L" "D" "bob" 60 7).2.2 (by decide)).1⟩

/-! ### Claim theorems: aggregator invariants (C8) -/

/-- The identity keys of the live sessions. -/
def keysOf (d : Detections) : List String := d.map Prod.fst

lemma keysOf_cons (p : String × Session) (d : Detections) :
    keysOf (p :: d) = p.1 :: keysOf d := rfl

/-- Every live session is well formed below a time bound: it started no
later than it was last seen, and was last seen no later than the bound. -/
def SessionsWF (d : Detections) (t : ℚ) : Prop :=
  ∀ p ∈ d, p.2.start ≤ p.2.last_seen ∧ p.2.last_seen ≤ t

/-- A record trace `(name, confidence, timestamp)` with timestamps
bounded below by `t` and non-decreasing. -/
def timesMono : ℚ → List (String × ℚ × ℚ) → Prop
  | _, [] => True
  | t, e :: rest => t ≤ e.2.2 ∧ timesMono e.2.2 rest

/-- Fold a trace of record operations over the detections dictionary. -/
def runRecords : Detections → List (String × ℚ × ℚ) → Detections
  | d, [] => d
  | d, e :: rest => runRecords (record d e.1 e.2.1 e.2.2) rest

lemma updateSession_keys (d : Detections) (name : String) (conf now : ℚ) :
    keysOf (updateSession d name conf now) =
      if name ∈ keysOf d then keysOf d else keysOf d ++ [name] := by
  induction d with
  | nil => simp [updateSession, keysOf]
  | cons p rest ih =>
    obtain ⟨n, s0⟩ := p
    by_cases he : n = name
    · subst he
      simp [updateSession, keysOf_cons]
    · simp only [updateSession, if_neg he, keysOf_cons]
      rw [ih]
      by_cases hm : name ∈ keysOf rest
      · rw [if_pos hm, if_pos (List.mem_cons_of_mem n hm)]
      · rw [if_neg hm, if_neg (by simp [List.mem_cons, hm, Ne.symm he])]
        rfl

lemma record_keys_nodup (d : Detections) (name : String) (conf now : ℚ)
    (h : (keysOf d).Nodup) : (keysOf (record d name conf now)).Nodup := by
  rw [record]
  split_ifs with hu
  · exact h
  · rw [updateSession_keys]
    split_ifs with hm
    · exact h
    · rw [List.nodup_append]
      refine ⟨h, List.nodup_singleton name, fun x hx hx2 => ?_⟩
      simp only [List.mem_singleton] at hx2
      subst hx2
      exact hm hx

lemma SessionsWF_mono {d : Detections} {t t2 : ℚ} (h : SessionsWF d t) (ht : t ≤ t2) :
    SessionsWF d t2 :=
  fun p hp => ⟨(h p hp).1, le_trans (h p hp).2 ht⟩

lemma updateSession_WF (name : String) (conf : ℚ) (t now : ℚ) (ht : t ≤ now) :
    ∀ d : Detections, SessionsWF d t → SessionsWF (updateSession d name conf now) now := by
  intro d
  induction d with
  | nil =>
    intro _ p hp
    simp only [updateSession, List.mem_singleton] at hp
    subst hp
    exact ⟨le_refl now, le_refl now⟩
  | cons q rest ih =>
    intro h p hp
    obtain ⟨n, s0⟩ := q
    have hq : s0.start ≤ s0.last_seen ∧ s0.last_seen ≤ t :=
      h (n, s0) (List.mem_cons_self _ _)
    have hrest : SessionsWF rest t := fun p2 hp2 => h p2 (List.mem_cons_of_mem _ hp2)
    by_cases he : n = name
    · simp only [updateSession, if_pos he, List.mem_cons] at hp
      rcases hp with hp | hp
      · subst hp
        exact ⟨le_trans hq.1 (le_trans hq.2 ht), le_refl now⟩
      · exact SessionsWF_mono hrest ht p hp
    · simp only [updateSession, if_neg he, List.mem_cons] at hp
      rcases hp with hp | hp
      · subst hp
        exact ⟨hq.1, le_trans hq.2 ht⟩
      · exact ih hrest p hp

lemma record_WF (name : String) (conf : ℚ) {t now : ℚ} (ht : t ≤ now) (d : Detections)
    (h : SessionsWF d t) : SessionsWF (record d name conf now) now := by
  rw [record]
  split_ifs
  · exact SessionsWF_mono h ht
  · exact updateSession_WF name conf t now ht d h

lemma runRecords_inv : ∀ (evs : List (String × ℚ × ℚ)) (d : Detections) (t : ℚ),
    SessionsWF d t → (keysOf d).Nodup → timesMono t evs →
    (keysOf (runRecords d evs)).Nodup ∧ ∃ t2, SessionsWF (runRecords d evs) t2 := by
  intro evs
  induction evs with
  | nil =>
    intro d t hw hn _
    exact ⟨hn, t, hw⟩
  | cons e rest ih =>
    intro d t hw hn hm
    rw [runRecords]
    exact ih (record d e.1 e.2.1 e.2.2) e.2.2
      (record_WF e.1 e.2.1 hm.1 d hw)
      (record_keys_nodup d e.1 e.2.1 e.2.2 hn)
      hm.2

lemma timesMono_of_chain : ∀ (evs : List (String × ℚ × ℚ)) (t : ℚ),
    (∀ e ∈ evs.head?, t ≤ e.2.2) →
    List.Chain' (fun a b => a.2.2 ≤ b.2.2) evs → timesMono t evs := by
  intro evs
  induction evs with
  | nil =>
    intro t _ _
    trivial
  | cons e rest ih =>
    intro t h0 hc
    refine ⟨h0 e rfl, ?_⟩
    rcases List.chain'_cons'.mp hc with ⟨hh, hr⟩
    exact ih e.2.2 hh hr

lemma round2_nonneg (q : ℚ) (h : 0 ≤ q) : 0 ≤ round2 q := by
  have hf : (0:ℤ) ≤ Int.floor ((100:ℚ) * q) := by
    apply Int.floor_nonneg.mpr
    positivity
  have hf2 : (0:ℚ) ≤ ((Int.floor ((100:ℚ) * q)) : ℚ) := by exact_mod_cast hf
  unfold round2
  split_ifs <;> apply div_nonneg <;> linarith

/-- Claim C8, counterexample: the aggregator keys its sessions by the
raw recognized name, not case-insensitively — a monotone trace recording
`"Dinith"` then `"dinith"` yields two simultaneous live Sessions whose
identities coincide under the roster's case-insensitive notion of
identity, so "at most one live Session per (case-insensitive) identity"
is false. -/
theorem C8_counterexample :
    List.Chain' (fun a b : String × ℚ × ℚ => a.2.2 ≤ b.2.2)
      [("Dinith", 80, 0), ("dinith", 70, 1)] ∧
    keysOf (runRecords [] [("Dinith", 80, 0), ("dinith", 70, 1)]) =
      ["Dinith", "dinith"] ∧
    lower "Dinith" = lower "dinith" ∧ "Dinith" ≠ "dinith" := by
  refine ⟨?_, ?_, by decide, by decide⟩
  · simp only [List.chain'_cons, List.chain'_singleton, and_true]
    norm_num
  · have h1 : ("Dinith" = "Unknown") = False := by simp
    have h2 : ("dinith" = "Unknown") = False := by simp
    have h3 : ("Dinith" = "dinith") = False := by simp
    simp [runRecords, record, updateSession, keysOf, h1, h2, h3]

/-- Claim C8, amended: over any trace of record operations with
monotonically non-decreasing timestamps, each exact (case-sensitive)
identity string has at most one live Session, every live Session
satisfies `last_seen >= start`, every duration emitted by a flush is
`>= 0`; and a newly created Session has `start = last_seen`, so a
single-sighting Session flushes with duration 0. -/
theorem C8_amended : ∀ (evs : List (String × ℚ × ℚ)),
    List.Chain' (fun a b => a.2.2 ≤ b.2.2) evs →
    ((keysOf (runRecords [] evs)).Nodup ∧
     (∀ p ∈ runRecords [] evs, p.2.start ≤ p.2.last_seen) ∧
     (∀ (lab day : String) (r : Row), r ∈ detectionRows (runRecords [] evs) lab day →
        0 ≤ r.detected_duration)) ∧
    (∀ (name : String) (conf now : ℚ) (lab day : String), name ≠ "Unknown" →
      detectionRows (record [] name conf now) lab day =
        [⟨lab, name, conf, 0, day⟩]) := by
  intro evs hc
  have hmain : (keysOf (runRecords [] evs)).Nodup ∧
      ∃ t2, SessionsWF (runRecords [] evs) t2 := by
    cases evs with
    | nil =>
      exact runRecords_inv [] [] 0 (fun p hp => absurd hp (List.not_mem_nil p))
        List.nodup_nil trivial
    | cons e rest =>
      refine runRecords_inv (e :: rest) [] e.2.2
        (fun p hp => absurd hp (List.not_mem_nil p)) List.nodup_nil
        (timesMono_of_chain (e :: rest) e.2.2 (fun e2 he2 => ?_) hc)
      obtain rfl := Option.some.inj he2
      exact le_refl _
  constructor
  · refine ⟨hmain.1, ?_, ?_⟩
    · obtain ⟨t2, hw⟩ := hmain.2
      exact fun p hp => (hw p hp).1
    · intro lab day r hr
      obtain ⟨t2, hw⟩ := hmain.2
      simp only [detectionRows, List.mem_map] at hr
      obtain ⟨p, hp, rfl⟩ := hr
      exact round2_nonneg _ (sub_nonneg.mpr (hw p hp).1)
  · intro name conf now lab day hn
    rw [record, if_neg hn]
    show detectionRows [(name, Session.mk now now conf)] lab day =
      [Row.mk lab name conf 0 day]
    norm_num [detectionRows, round2]

/-- Claim C8 amended, witness: a concrete monotone two-sighting trace of
one identity keeps a single live session, and a fresh record flushes
with duration 0. -/
theorem C8_amended_witness :
    (keysOf (runRecords [] [("isuru", 90, 0), ("isuru", 85, 2)])).Nodup ∧
    detectionRows (record [] "bob" 60 7) "L" "D" = [Row.mk "L" "bob" 60 0 "D"] :=
  ⟨(C8_amended [("isuru", 90, 0), ("isuru", 85, 2)] (by
      simp only [List.chain'_cons, List.chain'_singleton, and_true]
      norm_num)).1.1,
   (C8_amended [("isuru", 90, 0), ("isuru", 85, 2)] (by
      simp only [List.chain'_cons, List.chain'_singleton, and_true]
      norm_num)).2 "bob" 60 7 "L" "D" (by decide)⟩

/-! ### Claim theorems: control loop shutdown and audit sink -/

/-- Claim C5: on every termination path of the control loop — end of
input / stop signal, camera read failure, or the stop key — the trace of
the run is the loop's own effects followed by the forced flush of every
Session live at loop exit (one CSV append when any are live) and a final
`close()`; the final state has the latch commanded closed and no pending
sessions. -/
theorem C5 : ∀ (inputs : List TickInput) (s : SysState) (lab day : String),
    (loopRun s inputs lab day).2 =
      (loopTicks s inputs).2 ++
      (log_detections (loopTicks s inputs).1 lab day).2 ++ [Effect.servoClose] ∧
    (loopRun s inputs lab day).1.servo_state = false ∧
    (loopRun s inputs lab day).1.detections = [] := by
  intro inputs
  induction inputs with
  | nil =>
    intro s lab day
    refine ⟨?_, rfl, rfl⟩
    simp [loopRun, loopTicks, shutdownSeq, close_servo]
  | cons i rest ih =>
    intro s lab day
    cases i with
    | camFail =>
      refine ⟨?_, rfl, rfl⟩
      simp [loopRun, loopTicks, shutdownSeq, close_servo]
    | frame faces button now nl d q =>
      cases q with
      | true =>
        refine ⟨?_, rfl, rfl⟩
        simp [loopRun, loopTicks, shutdownSeq, close_servo, List.append_assoc]
      | false =>
        obtain ⟨ih1, ih2, ih3⟩ := ih (frameStep s faces button now nl d).1 lab day
        refine ⟨?_, ih2, ih3⟩
        simp only [loopRun, loopTicks, if_neg Bool.false_ne_true]
        rw [ih1]
        simp [List.append_assoc]

/-- Claim C9, supporting theorem: the CSV setup opens the sink in append
mode and writes a header row on every process start, so two consecutive
runs against the same sink — the first logging one detection — leave the
sink with two header rows, the second of which sits after a data row.
This exhibits the failing input for the claim that exactly one header is
ever written and precedes every data row. -/
theorem C9_bug :
    processOutput (initState 0)
        [TickInput.frame [("isuru", 90)] false 1 "2025-01-01 10:00:00" "2025-01-01"
          false]
        "2025-01-01 10:00:00" "2025-01-01" ++
      processOutput (initState 0) [] "2025-01-01 10:00:00" "2025-01-01" =
      [CsvLine.header,
       CsvLine.data (Row.mk "2025-01-01 10:00:00" "isuru" 90 0 "2025-01-01"),
       CsvLine.header] := by
  have hmem : (lower "isuru" ∈ staff) = True := eq_true (by decide)
  have hst : decide (lower "isuru" ∈ staff) = true := by decide
  have h1 : ("isuru" = "Unknown") = False := by simp
  norm_num [processOutput, effectRows, loopRun, loopTicks, frameStep, engineTick,
    draw_results, faceLoop, buttonStep, autoCloseStep, open_servo, close_servo,
    shutdownSeq, log_detections, detectionRows, record, updateSession, detectedStaff,
    initState, LOG_INTERVAL, SERVO_TIMEOUT, BUTTON_PRESS_TIMEOUT, round2,
    hmem, hst, h1, List.filterMap]

/-- The auto-close block never changes the press or last-seen timers. -/
lemma autoCloseStep_fields (s : SysState) (now : ℚ) (button : Bool) :
    (autoCloseStep s now button).1.last_button_press = s.last_button_press ∧
    (autoCloseStep s now button).1.last_seen_time = s.last_seen_time := by
  unfold autoCloseStep close_servo
  split_ifs <;> exact ⟨rfl, rfl⟩

/-- The engine invariant justifying the hypothesis of the close-rule
characterization: the accepted-press timer never runs ahead of the
last-seen timer (the initial state has both at 0, and every accepted
press also refreshes `last_seen_time` through `open_servo`), and this is
preserved by every tick with a non-decreasing clock. -/
lemma engineTick_inv (s : SysState) (faces : List (String × ℚ)) (button : Bool)
    (now : ℚ) (hb : s.last_button_press ≤ s.last_seen_time)
    (hn : s.last_seen_time ≤ now) :
    (engineTick s faces button now).1.last_button_press ≤
      (engineTick s faces button now).1.last_seen_time := by
  have hET : (engineTick s faces button now).1 =
      (autoCloseStep (buttonStep (draw_results s faces now button).1 now button).1
        now button).1 := rfl
  rw [hET]
  rw [(autoCloseStep_fields
    (buttonStep (draw_results s faces now button).1 now button).1 now button).1]
  rw [(autoCloseStep_fields
    (buttonStep (draw_results s faces now button).1 now button).1 now button).2]
  rw [buttonStep_eq]
  split_ifs with hC
  · exact le_refl now
  · rw [draw_results_eq]
    split_ifs <;>
      (try dsimp only) <;>
      (try rw [faceLoop_button]) <;>
      (try rw [faceLoop_last_seen]) <;>
      (try split_ifs) <;>
      first
        | exact le_refl now
        | exact le_trans hb hn
        | exact hb
/-- The initial state satisfies the press-timer invariant. -/
lemma initState_inv (t0 : ℚ) :
    (initState t0).last_button_press ≤ (initState t0).last_seen_time :=
  le_refl 0

end SmartStaff
